import Mathlib

-- Shallow embedding of the Tactical Plan data model and validation engine of
-- the touchline_tactician repository.
--
-- Sources embedded:
--   src/models/tactical_plan.py   (Zone, PlayerPhase, Player, TacticalPlan)
--   src/tools/tactical_validator.py (TacticalValidatorTools: _parse_plan and
--                                    the four validation checks)
--   src/tools/file_operations.py  (TacticalPlanFileTools.save_plan / load_plan)
--
-- Modelling conventions:
--   * Python floats are modelled as rationals (ℚ).
--   * Python dicts are modelled as association lists (ordered, like dict).
--   * uuid.UUID is modelled as a 128-bit value (Fin (2 ^ 128)); its string
--     format / parse functions are modelled from CPython's uuid module.
--   * Raising an exception is modelled as Except.error carrying the message.
--   * The external file store is modelled as a map from filename to stored
--     file content; json.loads is an external-library parameter of the
--     environment (returning none both for a JSON decode error and for JSON
--     that is not an object, since both lead to the same fallback branch of
--     _parse_plan via the caught JSONDecodeError / TypeError).

-- ---------------------------------------------------------------------------
-- Zone (src/models/tactical_plan.py, class Zone)
-- ---------------------------------------------------------------------------


set_option maxRecDepth 4000

set_option maxHeartbeats 1000000

structure Zone where
  x_min : ℚ
  x_max : ℚ
  y_min : ℚ
  y_max : ℚ
deriving DecidableEq, Repr

-- Pydantic Field(ge=0, le=100) on every Zone coordinate.
def inFieldRange (v : ℚ) : Bool :=
  decide (0 ≤ v) && decide (v ≤ 100)

-- Pydantic construction of a Zone.  Each field first runs its own ge/le
-- constraint; the validate_x_range / validate_y_range field validators run
-- only when the field itself passed and compare against the min bound only
-- when that bound passed its own validation (the 'x_min' in info.data check).
-- Pydantic aggregates all field errors; construction succeeds iff no check
-- fails, which is what this sequential model preserves.
def Zone.construct (x_min x_max y_min y_max : ℚ) : Except String Zone :=
  let xminOk := inFieldRange x_min
  let xmaxOk := inFieldRange x_max && (!xminOk || decide (x_min < x_max))
  let yminOk := inFieldRange y_min
  let ymaxOk := inFieldRange y_max && (!yminOk || decide (y_min < y_max))
  if xminOk && xmaxOk && yminOk && ymaxOk then
    .ok { x_min := x_min, x_max := x_max, y_min := y_min, y_max := y_max }
  else
    .error "validation error for Zone"

-- The invariant a successfully constructed Zone satisfies.
def Zone.isValid (z : Zone) : Bool :=
  inFieldRange z.x_min && inFieldRange z.x_max && inFieldRange z.y_min &&
    inFieldRange z.y_max && decide (z.x_min < z.x_max) && decide (z.y_min < z.y_max)

-- Python truthiness of a Zone instance: pydantic BaseModel defines neither
-- a bool conversion nor a length, so every Zone object is truthy.  This is
-- what `if not player.zone:` in validate_zones evaluates.
def Zone.pyTruthy (_ : Zone) : Bool := true

def exOk {α : Type} : Except String α → Bool
  | .ok _ => true
  | .error _ => false

-- Python string primitives, modelled on the character list (kernel-reducible,
-- unlike the position-based core String functions).  str.upper() agrees with
-- Char.toUpper on ASCII, which covers every position code the engine compares.
def pyUpper (s : String) : String := String.mk (s.data.map Char.toUpper)

def pyContains (s : String) (c : Char) : Bool := s.data.contains c

-- str.strip() with no argument: remove leading and trailing whitespace.
def pyStrip (s : String) : String :=
  String.mk (((s.data.dropWhile Char.isWhitespace).reverse.dropWhile Char.isWhitespace).reverse)

-- s[:n]
def pyTake (s : String) (n : Nat) : String := String.mk (s.data.take n)

-- str.endswith
def pyEndsWith (s post : String) : Bool := post.data.isSuffixOf s.data

-- ---------------------------------------------------------------------------
-- PlayerPhase, Player (src/models/tactical_plan.py)
-- ---------------------------------------------------------------------------

structure PlayerPhase where
  position : String
  responsibilities : List String
  movement_patterns : List String
  key_actions : List String
deriving DecidableEq, Repr

structure Player where
  number : Int
  name : Option String
  position : String
  zone : Zone
  responsibilities : List (String × String)
  phases : List (String × PlayerPhase)
deriving DecidableEq, Repr

def Player.isValid (pl : Player) : Bool :=
  decide (1 ≤ pl.number) && decide (pl.number ≤ 99) && pl.zone.isValid

-- ---------------------------------------------------------------------------
-- UUID (CPython uuid module, as used by the repository)
-- ---------------------------------------------------------------------------

abbrev UUID := Fin (2 ^ 128)

-- Big-endian base-16 digits of n, fixed width w.
def toHexBE : Nat → Nat → List Nat
  | 0, _ => []
  | w + 1, n => toHexBE w (n / 16) ++ [n % 16]

-- Digit value to lowercase hex character ('0'..'9', 'a'..'f').
def hexChar (d : Nat) : Char :=
  if d < 10 then Char.ofNat (48 + d) else Char.ofNat (87 + d)

-- Hex character to digit value, accepting 0-9, a-f, A-F like int(s, 16).
def hexVal (c : Char) : Nat :=
  if 48 ≤ c.toNat ∧ c.toNat ≤ 57 then c.toNat - 48
  else if 97 ≤ c.toNat ∧ c.toNat ≤ 102 then c.toNat - 87
  else if 65 ≤ c.toNat ∧ c.toNat ≤ 70 then c.toNat - 55
  else 0

def isHexChar (c : Char) : Bool :=
  (48 ≤ c.toNat && c.toNat ≤ 57) || (97 ≤ c.toNat && c.toNat ≤ 102) ||
    (65 ≤ c.toNat && c.toNat ≤ 70)

def hexFold (cs : List Char) : Nat :=
  cs.foldl (fun acc c => acc * 16 + hexVal c) 0

-- str.replace(pat, '') : remove every non-overlapping occurrence of pat,
-- scanning left to right.  (The repository only uses non-empty patterns;
-- the pat = [] guard exists for termination and returns the input.)
def replaceAllAux (pat : List Char) : Nat → List Char → List Char
  | 0, s => s
  | _, [] => []
  | fuel + 1, c :: rest =>
    if pat.isPrefixOf (c :: rest) ∧ pat ≠ [] then
      replaceAllAux pat fuel (rest.drop (pat.length - 1))
    else
      c :: replaceAllAux pat fuel rest

def replaceAll (pat s : List Char) : List Char :=
  replaceAllAux pat s.length s

def isBrace (c : Char) : Bool := c = '\x7b' || c = '\x7d'

-- str.strip('{}') : drop leading and trailing brace characters.
def stripBraces (cs : List Char) : List Char :=
  ((cs.dropWhile isBrace).reverse.dropWhile isBrace).reverse

-- uuid.UUID(hex=s): strip 'urn:' and 'uuid:' occurrences, strip surrounding
-- braces, remove hyphens, require exactly 32 hex digits, take their value.
-- (int(s, 16) quirks such as a leading '0x', sign, or underscores are not
-- modelled; no stored or formatted UUID string contains them.)
def parseUUID (s : String) : Option UUID :=
  let cs := stripBraces (replaceAll "uuid:".data (replaceAll "urn:".data s.data))
  let hexs := cs.filter (fun c => !(c == '-'))
  if hexs.length = 32 ∧ ∀ c ∈ hexs, isHexChar c then
    -- the value of 32 hex digits is below 16^32 = 2^128, so the reduction
    -- mod 2^128 that fits the value into the UUID type is the identity
    some ⟨hexFold hexs % 2 ^ 128, Nat.mod_lt _ (by norm_num)⟩
  else
    none

-- str(uuid): 32 lowercase hex digits in groups 8-4-4-4-12.
def uuidHyphenate (ds : List Char) : List Char :=
  ds.take 8 ++ '-' :: (ds.drop 8).take 4 ++ '-' :: (ds.drop 12).take 4 ++
    '-' :: (ds.drop 16).take 4 ++ '-' :: ds.drop 20

def formatUUID (u : UUID) : String :=
  String.mk (uuidHyphenate ((toHexBE 32 u.val).map hexChar))

-- ---------------------------------------------------------------------------
-- TacticalPlan (src/models/tactical_plan.py, class TacticalPlan)
-- ---------------------------------------------------------------------------

-- metadata: Dict[str, str]; the default factory creates exactly the keys
-- created_at and modified_at, and those are the only keys the repository
-- ever reads or writes, so the dict is modelled by this two-field record.
structure Metadata where
  created_at : String
  modified_at : String
deriving DecidableEq, Repr

structure TacticalPlan where
  plan_id : UUID
  name : String
  formation : String
  players : List Player
  zones : List (String × Zone)
  pressing_triggers : List String
  transition_instructions : List (String × String)
  metadata : Metadata
deriving DecidableEq, Repr

def TacticalPlan.isValid (p : TacticalPlan) : Bool :=
  p.players.all Player.isValid && p.zones.all (fun kz => kz.2.isValid)

-- update_modified_time: sets metadata["modified_at"] to the current time
-- (the clock reading is passed in explicitly).
def TacticalPlan.update_modified_time (p : TacticalPlan) (now : String) : TacticalPlan :=
  { p with metadata := { p.metadata with modified_at := now } }

def TacticalPlan.get_player_by_number (p : TacticalPlan) (number : Int) : Option Player :=
  p.players.find? (fun pl => pl.number == number)

def standard_formations : List (String × Nat) :=
  [("4-3-3", 10), ("4-4-2", 10), ("4-2-3-1", 10), ("3-5-2", 10),
   ("3-4-3", 10), ("5-3-2", 10), ("4-5-1", 10)]

-- TacticalPlan.validate_formation (the model method): roster size check.
def TacticalPlan.validate_formation (p : TacticalPlan) : Bool :=
  match standard_formations.lookup p.formation with
  | some expectedOutfield => p.players.length == expectedOutfield + 1
  | none => true

-- ---------------------------------------------------------------------------
-- Dict-shaped plan data (the mapping / parsed-JSON input shape)
-- ---------------------------------------------------------------------------

-- The value found under the 'plan_id' key of a mapping: a string, a number,
-- or an already-converted UUID object.
inductive PIdValue where
  | str (s : String)
  | num (n : Int)
  | uuidVal (u : UUID)
deriving DecidableEq, Repr

structure ZoneDict where
  x_min : ℚ
  x_max : ℚ
  y_min : ℚ
  y_max : ℚ
deriving DecidableEq, Repr

-- A player entry of the mapping.  Fields with pydantic defaults that are
-- omitted from the mapping are represented by their default values.
structure PlayerDict where
  number : Int
  name : Option String
  position : String
  zone : ZoneDict
  responsibilities : List (String × String)
  phases : List (String × PlayerPhase)
deriving DecidableEq, Repr

-- A plan mapping; none models an absent key.
structure PlanDict where
  plan_id : Option PIdValue := none
  name : Option String := none
  formation : Option String := none
  players : Option (List PlayerDict) := none
  zones : Option (List (String × ZoneDict)) := none
  pressing_triggers : Option (List String) := none
  transition_instructions : Option (List (String × String)) := none
  metadata : Option Metadata := none
deriving DecidableEq, Repr

-- Pydantic list-field validation: validate every element, fail on any error.
def mapEx {α β : Type} (f : α → Except String β) : List α → Except String (List β)
  | [] => .ok []
  | a :: rest => do
    let b ← f a
    let bs ← mapEx f rest
    .ok (b :: bs)

-- Pydantic construction of a Player from a mapping entry: number must be in
-- [1, 99] (Field ge=1 le=99) and the zone must construct.
def Player.construct (pd : PlayerDict) : Except String Player := do
  if 1 ≤ pd.number ∧ pd.number ≤ 99 then
    let z ← Zone.construct pd.zone.x_min pd.zone.x_max pd.zone.y_min pd.zone.y_max
    .ok { number := pd.number, name := pd.name, position := pd.position, zone := z,
          responsibilities := pd.responsibilities, phases := pd.phases }
  else
    .error "Input should be within the jersey number range 1 to 99"

-- Pydantic validation of the plan_id field: a valid UUID string or a UUID
-- object is accepted; any other type is rejected; an absent field falls back
-- to the uuid4() default factory value.
def pidOf (v : Option PIdValue) (freshId : UUID) : Except String UUID :=
  match v with
  | none => .ok freshId
  | some (.uuidVal u) => .ok u
  | some (.str s) =>
    match parseUUID s with
    | some u => .ok u
    | none => .error "Input should be a valid UUID"
  | some (.num _) => .error "UUID input should be a string, bytes or UUID object"

-- A pydantic required field: missing means a validation error.
def reqField {α : Type} (v : Option α) (msg : String) : Except String α :=
  match v with
  | some a => .ok a
  | none => .error msg

-- Validation of one entry of the team-zones mapping.
def zoneEntryConstruct (kz : String × ZoneDict) : Except String (String × Zone) := do
  let z ← Zone.construct kz.2.x_min kz.2.x_max kz.2.y_min kz.2.y_max
  .ok (kz.1, z)

-- Pydantic construction TacticalPlan(**d).  freshId models the uuid4()
-- default factory and now the datetime.now() metadata default factory.
-- Pydantic aggregates field errors; success again coincides with this
-- sequential model.
def TacticalPlan.construct (d : PlanDict) (freshId : UUID) (now : String) :
    Except String TacticalPlan := do
  let pid ← pidOf d.plan_id freshId
  let nm ← reqField d.name "Field required: name"
  let fm ← reqField d.formation "Field required: formation"
  let pls ← mapEx Player.construct (d.players.getD [])
  let zs ← mapEx zoneEntryConstruct (d.zones.getD [])
  .ok { plan_id := pid, name := nm, formation := fm, players := pls, zones := zs,
        pressing_triggers := d.pressing_triggers.getD [],
        transition_instructions := d.transition_instructions.getD [],
        metadata := d.metadata.getD { created_at := now, modified_at := now } }

-- ---------------------------------------------------------------------------
-- Plan Resolver (src/tools/tactical_validator.py, _parse_plan)
-- ---------------------------------------------------------------------------

-- A file of the plan store: either content that json.load parses to a plan
-- mapping, or a corrupt file on which json.load raises the given error.
inductive StoredFile where
  | corrupt (err : String)
  | content (d : PlanDict)
deriving DecidableEq, Repr

-- Environment of a validator call: the plan store (filename to file),
-- json.loads on raw text (none models JSONDecodeError, and also a JSON
-- document that is not an object, which raises TypeError at TacticalPlan(**)
-- and is caught by the same except clause), the uuid4() draw, and the clock.
structure Env where
  store : String → Option StoredFile
  jsonLoads : String → Option PlanDict
  freshId : UUID
  now : String

-- The supported input shapes of _parse_plan; other carries str(type(plan))
-- of an unsupported input.
inductive PlanInput where
  | plan (p : TacticalPlan)
  | dict (d : PlanDict)
  | text (s : String)
  | other (typeName : String)

-- The dict branch of _parse_plan: if 'plan_id' is present and is a string,
-- convert it to a UUID in place; if that conversion fails, delete the key so
-- that a fresh id is auto-generated.  Non-string values are left untouched.
def coercePlanId (d : PlanDict) : PlanDict :=
  match d.plan_id with
  | some (.str s) =>
    match parseUUID s with
    | some u => { d with plan_id := some (.uuidVal u) }
    | none => { d with plan_id := none }
  | _ => d

-- re.search of the pattern  plan_id=UUID\((quote)([^quotes]+)(quote)\)  where
-- quote is ' or ": try a match at each start position, left to right; the
-- capture is the maximal nonempty run of non-quote characters (the regex
-- continuation demands a quote and a closing parenthesis right after it).
def isQuote (c : Char) : Bool := c = '\x27' || c = '\x22'

def matchPlanIdAt (cs : List Char) : Option (List Char) :=
  let pat := "plan_id=UUID(".data
  if pat.isPrefixOf cs then
    match cs.drop pat.length with
    | q :: rest2 =>
      if isQuote q then
        let cap := rest2.takeWhile (fun c => !(isQuote c))
        match rest2.drop cap.length with
        | q2 :: ')' :: _ => if cap ≠ [] ∧ isQuote q2 then some cap else none
        | _ => none
      else none
    | [] => none
  else none

def searchPlanIdUUID : List Char → Option (List Char)
  | [] => none
  | c :: rest =>
    match matchPlanIdAt (c :: rest) with
    | some cap => some cap
    | none => searchPlanIdUUID rest

-- pathlib suffix of a file name: the part from the last dot on, provided
-- that dot is neither the first nor the last character of the name.
def rfindIdx (c : Char) (cs : List Char) : Option Nat :=
  match cs.reverse.findIdx? (fun x => x == c) with
  | some j => some (cs.length - 1 - j)
  | none => none

def pathSuffixLen (cs : List Char) : Nat :=
  match rfindIdx '.' cs with
  | some i => if 0 < i ∧ i < cs.length - 1 then cs.length - i else 0
  | none => 0

-- Path(name) with `if not suffix or suffix != '.json': with_suffix('.json')`:
-- keep a name already ending in a '.json' suffix, otherwise replace any other
-- suffix with '.json' (appending when there is no suffix).
def toJsonFilename (name : String) : String :=
  let cs := name.data
  let k := pathSuffixLen cs
  if k = 0 then name ++ ".json"
  else if cs.drop (cs.length - k) = ".json".data then name
  else String.mk (cs.take (cs.length - k)) ++ ".json"

-- Loading inside _parse_plan: convert a string plan_id in place (raising on
-- an invalid string), then TacticalPlan(**plan_dict); pydantic's
-- ValidationError is a ValueError and is caught by the same except clause.
def validatorFileConstruct (env : Env) (d : PlanDict) : Except String TacticalPlan :=
  match d.plan_id with
  | some (.str s) =>
    match parseUUID s with
    | some u => TacticalPlan.construct { d with plan_id := some (.uuidVal u) } env.freshId env.now
    | none => .error "badly formed hexadecimal UUID string"
  | _ => TacticalPlan.construct d env.freshId env.now

-- The branch of _parse_plan that loads <uuid>.json from the plans directory.
def loadStoredForId (env : Env) (u : UUID) : Except String TacticalPlan :=
  let wrap := fun e => "Error loading plan file for plan_id " ++ formatUUID u ++ ": " ++ e ++
    ". The file may be corrupted or incomplete."
  match env.store (formatUUID u ++ ".json") with
  | none => .error ("Plan file not found for plan_id: " ++ formatUUID u ++
      ". The plan may not have been saved yet, or the plan_id is incorrect.")
  | some (.corrupt e) => .error (wrap e)
  | some (.content d) =>
    match validatorFileConstruct env d with
    | .ok p => .ok p
    | .error e => .error (wrap e)

-- The branch of _parse_plan that treats the text as a filename; raw is the
-- original input string echoed (truncated to 100 characters) on failure.
def loadStoredForFilename (env : Env) (fname raw : String) : Except String TacticalPlan :=
  let wrap := fun e => "Error loading plan file " ++ fname ++ ": " ++ e ++
    ". The file may be corrupted or incomplete."
  match env.store fname with
  | none => .error ("Invalid plan input: expected TacticalPlan, dict, JSON string, plan_id (UUID), or filename. Tried to load as UUID and filename, but neither worked. Input: " ++ pyTake raw 100)
  | some (.corrupt e) => .error (wrap e)
  | some (.content d) =>
    match validatorFileConstruct env d with
    | .ok p => .ok p
    | .error e => .error (wrap e)

-- _parse_plan: resolve any supported input shape to a TacticalPlan.
def parsePlan (env : Env) (input : PlanInput) : Except String TacticalPlan :=
  match input with
  | .plan p => .ok p
  | .dict d => TacticalPlan.construct (coercePlanId d) env.freshId env.now
  | .text s =>
    match env.jsonLoads s with
    | some d => TacticalPlan.construct (coercePlanId d) env.freshId env.now
    | none =>
      let fromRepr : Option UUID :=
        match searchPlanIdUUID s.data with
        | some cap => parseUUID (String.mk cap)
        | none => none
      let planUuid : Option UUID :=
        match fromRepr with
        | some u => some u
        | none => parseUUID (pyStrip s)
      match planUuid with
      | some u => loadStoredForId env u
      | none => loadStoredForFilename env (toJsonFilename (pyStrip s)) s
  | .other typeName =>
    .error ("Invalid plan type: expected TacticalPlan, dict, or JSON string, got " ++ typeName)

-- ---------------------------------------------------------------------------
-- Validation Engine (src/tools/tactical_validator.py, the four checks)
-- ---------------------------------------------------------------------------

structure ValidationReport where
  valid : Bool
  issues : List String
  message : String
deriving DecidableEq, Repr

-- Common shape of the four checks: resolve the plan, collect issues, report
-- valid iff no issue; any exception is caught and surfaced as the one issue.
def runCheck (env : Env) (input : PlanInput) (okMsg : String)
    (collect : TacticalPlan → List String) : ValidationReport :=
  match parsePlan env input with
  | .error e =>
    { valid := false, issues := [e], message := "Validation error: " ++ e }
  | .ok p =>
    let issues := collect p
    { valid := issues.isEmpty, issues := issues,
      message := if issues.isEmpty then okMsg
                 else "Found " ++ toString issues.length ++ " issues" }

def formationIssues (p : TacticalPlan) : List String :=
  (if p.formation = "" ∨ pyContains p.formation '-' = false then
    ["Formation must be in format like \x274-3-3\x27"] else [])
  ++ (if p.validate_formation = false then
    ["Number of players (" ++ toString p.players.length ++
      ") doesn\x27t match expected for formation " ++ p.formation] else [])
  ++ (if (p.players.any fun pl => ["GK", "GOALKEEPER"].contains (pyUpper pl.position)) = false
      then ["Team must have a goalkeeper (GK)"] else [])

def validate_formation (env : Env) (input : PlanInput) : ValidationReport :=
  runCheck env input "Formation is valid" formationIssues

def valid_positions : List String :=
  ["GK", "CB", "LB", "RB", "LWB", "RWB",
   "CDM", "CM", "CAM", "LM", "RM",
   "LW", "RW", "ST", "CF"]

-- Python's repr of a list of ints, as interpolated by an f-string.
def commaJoin : List String → String
  | [] => ""
  | [s] => s
  | s :: rest => s ++ ", " ++ commaJoin rest

def pyIntList (l : List Int) : String :=
  "[" ++ commaJoin (l.map toString) ++ "]"

def positionIssues (p : TacticalPlan) : List String :=
  ((p.players.filter (fun pl => !(valid_positions.contains (pyUpper pl.position)))).map
    (fun pl => "Player " ++ toString pl.number ++ " has invalid position: " ++ pl.position))
  ++ (let numbers := p.players.map Player.number
      let duplicates := numbers.filter (fun n => numbers.count n > 1)
      if duplicates.isEmpty then []
      else ["Duplicate player numbers: " ++ pyIntList duplicates])

def validate_player_positions (env : Env) (input : PlanInput) : ValidationReport :=
  runCheck env input "Player positions are valid" positionIssues

def zoneIssues (p : TacticalPlan) : List String :=
  ((p.players.filter (fun pl => !(pl.zone.pyTruthy))).map
    (fun pl => "Player " ++ toString pl.number ++ " is missing a zone"))
  ++ ((p.players.filter (fun pl =>
        decide (pl.zone.x_min < 0) || decide (pl.zone.x_max > 100) ||
        decide (pl.zone.y_min < 0) || decide (pl.zone.y_max > 100))).map
    (fun pl => "Player " ++ toString pl.number ++ " zone is out of bounds"))

def validate_zones (env : Env) (input : PlanInput) : ValidationReport :=
  runCheck env input "Zones are valid" zoneIssues

def required_phases : List String := ["attack", "defense", "transition"]

def playerPhaseIssues (pl : Player) : List String :=
  if pl.phases.isEmpty then
    ["Player " ++ toString pl.number ++ " missing phase instructions"]
  else
    (required_phases.filter (fun ph => !((pl.phases.map Prod.fst).contains ph))).map
      (fun ph => "Player " ++ toString pl.number ++ " missing " ++ ph ++ " phase instructions")

def consistencyIssues (p : TacticalPlan) : List String :=
  (p.players.map playerPhaseIssues).flatten
  ++ (if p.pressing_triggers.isEmpty then ["No pressing triggers defined"] else [])

def check_tactical_consistency (env : Env) (input : PlanInput) : ValidationReport :=
  runCheck env input "Tactical plan is consistent" consistencyIssues

-- ---------------------------------------------------------------------------
-- File operations (src/tools/file_operations.py, save_plan / load_plan)
-- ---------------------------------------------------------------------------

abbrev Store := String → Option StoredFile

def ensureJson (f : String) : String :=
  if pyEndsWith f ".json" then f else f ++ ".json"

-- model_dump(mode='json') of a plan, with plan_id rendered as its string.
def encodeZone (z : Zone) : ZoneDict :=
  { x_min := z.x_min, x_max := z.x_max, y_min := z.y_min, y_max := z.y_max }

def encodePlayer (pl : Player) : PlayerDict :=
  { number := pl.number, name := pl.name, position := pl.position,
    zone := encodeZone pl.zone, responsibilities := pl.responsibilities,
    phases := pl.phases }

def encodePlan (p : TacticalPlan) : PlanDict :=
  { plan_id := some (.str (formatUUID p.plan_id)),
    name := some p.name, formation := some p.formation,
    players := some (p.players.map encodePlayer),
    zones := some (p.zones.map (fun kz => (kz.1, encodeZone kz.2))),
    pressing_triggers := some p.pressing_triggers,
    transition_instructions := some p.transition_instructions,
    metadata := some p.metadata }

-- save_plan: default filename <plan_id>.json, append .json when missing,
-- refresh modified_at, dump the plan to the file.  Returns the new store and
-- the filename written.
def save_plan (store : Store) (now : String) (p : TacticalPlan) (filename : Option String) :
    Store × String :=
  let fname := match filename with
    | none => formatUUID p.plan_id ++ ".json"
    | some f => f
  let fname := ensureJson fname
  let p2 := p.update_modified_time now
  (fun f => if f = fname then some (.content (encodePlan p2)) else store f, fname)

-- load_plan: append .json when missing, fail when absent, parse the JSON,
-- convert plan_id (whatever its type) through UUID(), construct the plan.
-- freshId / now feed the pydantic default factories.
-- The body of load_plan once the file content is parsed: plan_id of any
-- type is pushed through UUID() (an invalid string raises; a non-string
-- value has no the hex-string interface and raises as well), then the plan
-- is constructed.
def load_plan_content (d : PlanDict) (freshId : UUID) (now : String) :
    Except String TacticalPlan :=
  match d.plan_id with
  | none => TacticalPlan.construct d freshId now
  | some (.str s) =>
    match parseUUID s with
    | some u => TacticalPlan.construct { d with plan_id := some (.uuidVal u) } freshId now
    | none => .error "badly formed hexadecimal UUID string"
  | some _ => .error "UUID() requires a string hex argument"

def load_plan (store : Store) (freshId : UUID) (now : String) (filename : String) :
    Except String TacticalPlan :=
  let fn := ensureJson filename
  match store fn with
  | none => .error ("Plan file not found: " ++ fn)
  | some (.corrupt e) => .error e
  | some (.content d) => load_plan_content d freshId now

-- ---------------------------------------------------------------------------
-- Sample data for concrete evaluations
-- ---------------------------------------------------------------------------

def uuid0 : UUID := ⟨0, by norm_num⟩

def emptyEnv : Env :=
  { store := fun _ => none, jsonLoads := fun _ => none, freshId := uuid0,
    now := "2026-01-01T00:00:00" }

def sampleZone : Zone := { x_min := 10, x_max := 90, y_min := 0, y_max := 100 }

def samplePhase (pos : String) : PlayerPhase :=
  { position := pos, responsibilities := [], movement_patterns := [], key_actions := [] }

def samplePhases : List (String × PlayerPhase) :=
  [("attack", samplePhase "CM"), ("defense", samplePhase "CM"),
   ("transition", samplePhase "CM")]

def samplePlayer (num : Int) (pos : String) : Player :=
  { number := num, name := none, position := pos, zone := sampleZone,
    responsibilities := [], phases := samplePhases }

def sampleMetadata : Metadata :=
  { created_at := "2025-12-31T00:00:00", modified_at := "2025-12-31T00:00:00" }

def mkPlan (formation : String) (players : List Player) : TacticalPlan :=
  { plan_id := uuid0, name := "Press High", formation := formation,
    players := players, zones := [], pressing_triggers := ["opponent back pass"],
    transition_instructions := [], metadata := sampleMetadata }

def players11 : List Player :=
  samplePlayer 1 "GK" :: (List.range 10).map (fun i => samplePlayer ((i : Int) + 2) "CM")

def plan433 : TacticalPlan := mkPlan "4-3-3" players11

def plan333 : TacticalPlan := mkPlan "3-3-3" [samplePlayer 1 "GK"]

-- A plan with two goalkeepers among its 11 players.
def twoGKPlan : TacticalPlan :=
  mkPlan "4-3-3"
    (samplePlayer 1 "GK" :: samplePlayer 2 "GK" ::
      (List.range 9).map (fun i => samplePlayer ((i : Int) + 3) "CM"))

-- ---------------------------------------------------------------------------
-- C8: plan_id coercion on mapping input
-- ---------------------------------------------------------------------------

def numIdDict : PlanDict :=
  { plan_id := some (.num 433001),
    name := some "Press High",
    formation := some "4-3-3",
    players := some [],
    zones := some [],
    pressing_triggers := some ["opponent back pass"],
    transition_instructions := some [],
    metadata := some sampleMetadata }

def strIdDict : PlanDict := { numIdDict with plan_id := some (.str "433-standard-001") }

def zSamplePlayerDict : PlayerDict :=
  { number := 7, name := none, position := "ST",
    zone := { x_min := 60, x_max := 90, y_min := 30, y_max := 70 },
    responsibilities := [], phases := samplePhases }

def zSamplePlayer : Player :=
  { number := 7, name := none, position := "ST",
    zone := { x_min := 60, x_max := 90, y_min := 30, y_max := 70 },
    responsibilities := [], phases := samplePhases }

def zSampleDict : PlanDict :=
  { plan_id := none, name := some "Press High", formation := some "4-3-3",
    players := some [zSamplePlayerDict],
    zones := some [], pressing_triggers := some ["opponent back pass"],
    transition_instructions := some [], metadata := some sampleMetadata }

def zSamplePlan : TacticalPlan :=
  { plan_id := uuid0, name := "Press High", formation := "4-3-3",
    players := [zSamplePlayer],
    zones := [], pressing_triggers := ["opponent back pass"],
    transition_instructions := [], metadata := sampleMetadata }

-- ---------------------------------------------------------------------------
-- C7: resolving a debug-printed plan reference with an invalid UUID
-- ---------------------------------------------------------------------------

def c7input : String := "plan_id=UUID(\x27not-a-real-uuid\x27)"

-- ---------------------------------------------------------------------------
-- Theorems
-- ---------------------------------------------------------------------------

theorem hexVal_lt (c : Char) : hexVal c < 16 := by
  unfold hexVal
  split <;> [omega; (split <;> [omega; (split <;> omega)])]

theorem hexFold_go_lt (cs : List Char) :
    ∀ a k, a < k → List.foldl (fun acc c => acc * 16 + hexVal c) a cs < k * 16 ^ cs.length := by
  induction cs with
  | nil => intro a k h; simpa using h
  | cons c rest ih =>
    intro a k h
    have h1 : a * 16 + hexVal c < k * 16 := by
      have := hexVal_lt c
      omega
    have h2 := ih (a * 16 + hexVal c) (k * 16) h1
    simpa [List.length_cons, pow_succ, mul_assoc, mul_comm, mul_left_comm] using h2

theorem hexFold_lt_of_len32 (cs : List Char) (h : cs.length = 32) :
    hexFold cs < 2 ^ 128 := by
  have h2 := hexFold_go_lt cs 0 1 (by omega)
  rw [h] at h2
  unfold hexFold
  calc cs.foldl (fun acc c => acc * 16 + hexVal c) 0 < 1 * 16 ^ 32 := h2
    _ = 2 ^ 128 := by norm_num

-- ---------------------------------------------------------------------------
-- C2: formation size consistency
-- ---------------------------------------------------------------------------

/-- C2: for a plan whose formation token is one of the seven canonical tokens,
TacticalPlan.validate_formation (is_formation_size_consistent) is true iff the
roster has exactly 11 players; for any other formation token it is true
regardless of roster size. -/
theorem claim_C2 (p : TacticalPlan) :
    (p.formation ∈ ["4-3-3", "4-4-2", "4-2-3-1", "3-5-2", "3-4-3", "5-3-2", "4-5-1"] →
      (p.validate_formation = true ↔ p.players.length = 11))
    ∧ (p.formation ∉ ["4-3-3", "4-4-2", "4-2-3-1", "3-5-2", "3-4-3", "5-3-2", "4-5-1"] →
      p.validate_formation = true) := by
  constructor
  · intro h
    have hl : standard_formations.lookup p.formation = some 10 := by
      simp only [List.mem_cons, List.not_mem_nil, or_false] at h
      rcases h with h | h | h | h | h | h | h <;> rw [h] <;> rfl
    unfold TacticalPlan.validate_formation
    rw [hl]
    simp
  · intro h
    simp only [List.mem_cons, List.not_mem_nil, or_false, not_or] at h
    obtain ⟨h1, h2, h3, h4, h5, h6, h7⟩ := h
    have hl : standard_formations.lookup p.formation = none := by
      have b1 := beq_eq_false_iff_ne.mpr h1
      have b2 := beq_eq_false_iff_ne.mpr h2
      have b3 := beq_eq_false_iff_ne.mpr h3
      have b4 := beq_eq_false_iff_ne.mpr h4
      have b5 := beq_eq_false_iff_ne.mpr h5
      have b6 := beq_eq_false_iff_ne.mpr h6
      have b7 := beq_eq_false_iff_ne.mpr h7
      unfold standard_formations
      simp [List.lookup, b1, b2, b3, b4, b5, b6, b7]
    unfold TacticalPlan.validate_formation
    rw [hl]

/-- C2 witness: a canonical-formation plan with 11 players is size-consistent,
and a plan with non-canonical formation 3-3-3 and 1 player is too. -/
theorem claim_C2_witness :
    plan433.validate_formation = true ∧ plan333.validate_formation = true :=
  ⟨((claim_C2 plan433).1 (by decide)).mpr (by decide),
   (claim_C2 plan333).2 (by decide)⟩

-- ---------------------------------------------------------------------------
-- C5: Zone construction
-- ---------------------------------------------------------------------------

theorem Zone.construct_ok_iff (x1 x2 y1 y2 : ℚ) :
    exOk (Zone.construct x1 x2 y1 y2) = true ↔
      ((0 ≤ x1 ∧ x1 ≤ 100) ∧ (0 ≤ x2 ∧ x2 ≤ 100) ∧ (0 ≤ y1 ∧ y1 ≤ 100) ∧
       (0 ≤ y2 ∧ y2 ≤ 100) ∧ x1 < x2 ∧ y1 < y2) := by
  simp only [Zone.construct, inFieldRange]
  split
  case isTrue h =>
    simp only [exOk, eq_self_iff_true, true_iff]
    simp only [Bool.and_eq_true, Bool.or_eq_true, Bool.not_eq_true',
      Bool.and_eq_false_iff, decide_eq_true_iff, decide_eq_false_iff_not] at h
    tauto
  case isFalse h =>
    simp only [exOk, Bool.false_eq_true, false_iff]
    intro hc
    apply h
    simp only [Bool.and_eq_true, Bool.or_eq_true, Bool.not_eq_true',
      Bool.and_eq_false_iff, decide_eq_true_iff, decide_eq_false_iff_not]
    tauto

/-- C5: constructing a Zone fails exactly when some bound lies outside
[0, 100] or x_max ≤ x_min or y_max ≤ y_min; construction with
x_min=10, x_max=90, y_min=0, y_max=100 succeeds. -/
theorem claim_C5 :
    (∀ x_min x_max y_min y_max : ℚ,
      exOk (Zone.construct x_min x_max y_min y_max) = false ↔
        (x_min < 0 ∨ 100 < x_min ∨ x_max < 0 ∨ 100 < x_max ∨
         y_min < 0 ∨ 100 < y_min ∨ y_max < 0 ∨ 100 < y_max ∨
         x_max ≤ x_min ∨ y_max ≤ y_min))
    ∧ exOk (Zone.construct 10 90 0 100) = true := by
  constructor
  · intro x1 x2 y1 y2
    rw [Bool.eq_false_iff, Ne, Zone.construct_ok_iff]
    simp only [not_and_or, not_le, not_lt]
    constructor
    · intro h
      tauto
    · intro h
      tauto
  · decide

-- ---------------------------------------------------------------------------
-- C1: goalkeeper rule of the formation check
-- ---------------------------------------------------------------------------

theorem string_data_append (a b : String) : (a ++ b).data = a.data ++ b.data := rfl

theorem gk_ne_count_issue (x y : String) :
    "Team must have a goalkeeper (GK)" ≠
      "Number of players (" ++ x ++ ") doesn\x27t match expected for formation " ++ y := by
  intro h
  have h2 := congrArg (fun s : String => s.data.take 1) h
  simp only [string_data_append] at h2
  rw [List.append_assoc, List.append_assoc] at h2
  rw [List.take_append_of_le_length (by decide)] at h2
  exact absurd h2 (by decide)

theorem mem_formationIssues_gk (p : TacticalPlan) :
    ("Team must have a goalkeeper (GK)" ∈ formationIssues p) ↔
      (p.players.any fun pl => ["GK", "GOALKEEPER"].contains (pyUpper pl.position)) = false := by
  have hni1 : "Team must have a goalkeeper (GK)" ∉
      (if p.formation = "" ∨ pyContains p.formation '-' = false then
        ["Formation must be in format like \x274-3-3\x27"] else ([] : List String)) := by
    split
    · simp only [List.mem_singleton]
      decide
    · simp
  have hni2 : "Team must have a goalkeeper (GK)" ∉
      (if p.validate_formation = false then
        ["Number of players (" ++ toString p.players.length ++
          ") doesn\x27t match expected for formation " ++ p.formation] else ([] : List String)) := by
    split
    · simp only [List.mem_singleton]
      exact gk_ne_count_issue _ _
    · simp
  unfold formationIssues
  rw [List.mem_append, List.mem_append]
  constructor
  · rintro ((h | h) | h)
    · exact absurd h hni1
    · exact absurd h hni2
    · revert h
      split
      case isTrue hc => intro _; exact hc
      case isFalse hc => simp
  · intro h
    right
    rw [if_pos h]
    simp

/-- C1 counterexample: a resolved plan with two goalkeeper-positioned players
(11 players, formation 4-3-3) passes the formation check with no issue at
all, although the claim says a plan with two goalkeepers fails it. -/
theorem claim_C1_counterexample :
    (twoGKPlan.players.countP fun pl => ["GK", "GOALKEEPER"].contains (pyUpper pl.position)) = 2
    ∧ validate_formation emptyEnv (.plan twoGKPlan) =
        { valid := true, issues := [], message := "Formation is valid" } := by
  constructor
  · decide
  · decide

/-- C1 (amended): for every resolved plan, the formation check reports the
goalkeeper issue iff the number of players whose position code, compared
case-insensitively, is GK or GOALKEEPER is zero (the code only requires at
least one goalkeeper; a surplus of goalkeepers is not reported). -/
theorem claim_C1 (env : Env) (p : TacticalPlan) :
    ("Team must have a goalkeeper (GK)" ∈ (validate_formation env (.plan p)).issues) ↔
      (p.players.countP fun pl => ["GK", "GOALKEEPER"].contains (pyUpper pl.position)) = 0 := by
  have hrep : (validate_formation env (.plan p)).issues = formationIssues p := rfl
  rw [hrep, mem_formationIssues_gk, List.any_eq_false, List.countP_eq_zero]

-- ---------------------------------------------------------------------------
-- C4: position vocabulary and jersey number uniqueness
-- ---------------------------------------------------------------------------

theorem infix_commaJoin (x : String) (l : List String) (h : x ∈ l) :
    x.data <:+: (commaJoin l).data := by
  induction l with
  | nil => cases h
  | cons a rest ih =>
    cases rest with
    | nil =>
      rw [List.mem_singleton] at h
      subst h
      exact List.infix_rfl
    | cons b rest2 =>
      rcases List.mem_cons.mp h with h1 | h2
      · subst h1
        refine List.IsPrefix.isInfix ?_
        show x.data <+: (x ++ ", " ++ commaJoin (b :: rest2)).data
        rw [string_data_append, string_data_append, List.append_assoc]
        exact List.prefix_append _ _
      · have h3 := ih h2
        show x.data <:+: (a ++ ", " ++ commaJoin (b :: rest2)).data
        rw [string_data_append]
        exact h3.trans (List.suffix_append _ _).isInfix

theorem infix_pyIntList (n : Int) (l : List Int) (h : n ∈ l) :
    (toString n).data <:+: (pyIntList l).data := by
  unfold pyIntList
  have h2 : toString n ∈ l.map toString := List.mem_map_of_mem _ h
  have h3 := infix_commaJoin _ _ h2
  rw [string_data_append, string_data_append]
  exact (h3.trans (List.suffix_append _ _).isInfix).trans (List.prefix_append _ _).isInfix

theorem duplicates_empty_iff (numbers : List Int) :
    (numbers.filter fun n => numbers.count n > 1).isEmpty = true ↔ numbers.Nodup := by
  rw [List.isEmpty_iff, List.filter_eq_nil_iff, List.nodup_iff_count_le_one]
  constructor
  · intro h a
    by_cases ha : a ∈ numbers
    · have h2 := h a ha
      simp only [gt_iff_lt, decide_eq_true_eq, not_lt] at h2
      omega
    · rw [List.count_eq_zero_of_not_mem ha]
      omega
  · intro h a ha
    have h2 := h a
    simp only [gt_iff_lt, decide_eq_true_eq, not_lt]
    omega

theorem positionIssues_empty_iff (p : TacticalPlan) :
    (positionIssues p).isEmpty = true ↔
      ((∀ pl ∈ p.players, valid_positions.contains (pyUpper pl.position) = true) ∧
        (p.players.map Player.number).Nodup) := by
  simp only [positionIssues]
  rw [List.isEmpty_iff, List.append_eq_nil]
  constructor
  · rintro ⟨hA, hB⟩
    constructor
    · rw [List.map_eq_nil_iff, List.filter_eq_nil_iff] at hA
      intro pl hpl
      have := hA pl hpl
      simpa using this
    · revert hB
      split
      case isTrue hd =>
        intro _
        exact (duplicates_empty_iff _).mp hd
      case isFalse hd =>
        intro hB
        exact absurd hB (by simp)
  · rintro ⟨hpos, hnd⟩
    constructor
    · rw [List.map_eq_nil_iff, List.filter_eq_nil_iff]
      intro pl hpl
      simpa using hpos pl hpl
    · rw [if_pos ((duplicates_empty_iff _).mpr hnd)]

/-- C4: the position check passes iff every player position (uppercased) is
in the 15-code vocabulary and jersey numbers are pairwise distinct; a plan
containing the number 10 twice fails with an issue string mentioning 10,
regardless of the other players. -/
theorem claim_C4 (env : Env) (p : TacticalPlan) :
    ((validate_player_positions env (.plan p)).valid = true ↔
      ((∀ pl ∈ p.players, valid_positions.contains (pyUpper pl.position) = true) ∧
        (p.players.map Player.number).Nodup))
    ∧ (2 ≤ (p.players.map Player.number).count 10 →
        (validate_player_positions env (.plan p)).valid = false ∧
        ∃ s ∈ (validate_player_positions env (.plan p)).issues, "10".data <:+: s.data) := by
  have hvalid : (validate_player_positions env (.plan p)).valid = (positionIssues p).isEmpty := rfl
  have hissues : (validate_player_positions env (.plan p)).issues = positionIssues p := rfl
  constructor
  · rw [hvalid, positionIssues_empty_iff]
  · intro hcount
    have hmem10 : (10 : Int) ∈ p.players.map Player.number := by
      rw [← List.count_pos_iff]
      omega
    have hnotnd : ¬(p.players.map Player.number).Nodup := by
      rw [List.nodup_iff_count_le_one]
      intro h
      have := h 10
      omega
    constructor
    · rw [hvalid]
      rw [Bool.eq_false_iff, Ne, positionIssues_empty_iff]
      intro hc
      exact hnotnd hc.2
    · rw [hissues]
      have hdup10 : (10 : Int) ∈
          ((p.players.map Player.number).filter fun n => (p.players.map Player.number).count n > 1) := by
        rw [List.mem_filter]
        refine ⟨hmem10, ?_⟩
        simp only [gt_iff_lt, decide_eq_true_eq]
        omega
      have hdne : ((p.players.map Player.number).filter fun n =>
          (p.players.map Player.number).count n > 1).isEmpty = false := by
        rw [Bool.eq_false_iff, Ne, List.isEmpty_iff]
        intro hnil
        rw [hnil] at hdup10
        cases hdup10
      refine ⟨"Duplicate player numbers: " ++ pyIntList
        ((p.players.map Player.number).filter fun n => (p.players.map Player.number).count n > 1),
        ?_, ?_⟩
      · simp only [positionIssues]
        refine List.mem_append_right _ ?_
        rw [if_neg ?_]
        · exact List.mem_singleton.mpr rfl
        · rw [hdne]
          simp
      · have h10 : "10".data = (toString (10 : Int)).data := rfl
        rw [h10, string_data_append]
        exact (infix_pyIntList 10 _ hdup10).trans (List.suffix_append _ _).isInfix

/-- C4 witness: a concrete plan whose players both wear number 10 fails the
position check with an issue mentioning 10. -/
theorem claim_C4_witness :
    (validate_player_positions emptyEnv (.plan (mkPlan "4-4-2"
        [samplePlayer 10 "ST", samplePlayer 10 "CM"]))).valid = false ∧
      ∃ s ∈ (validate_player_positions emptyEnv (.plan (mkPlan "4-4-2"
        [samplePlayer 10 "ST", samplePlayer 10 "CM"]))).issues, "10".data <:+: s.data :=
  (claim_C4 emptyEnv (mkPlan "4-4-2" [samplePlayer 10 "ST", samplePlayer 10 "CM"])).2
    (by decide)

-- ---------------------------------------------------------------------------
-- C3, C10: report shape of the four checks
-- ---------------------------------------------------------------------------

theorem runCheck_valid_iff (env : Env) (input : PlanInput) (okMsg : String)
    (collect : TacticalPlan → List String) :
    (runCheck env input okMsg collect).valid = true ↔
      (runCheck env input okMsg collect).issues = [] := by
  cases hp : parsePlan env input with
  | error e =>
    unfold runCheck
    rw [hp]
    simp
  | ok p =>
    unfold runCheck
    rw [hp]
    simp [List.isEmpty_iff]

/-- C3: every input yields a structured report from each of the four checks;
whenever plan resolution fails internally with error text e, the report is
valid=false with issues=[e]. -/
theorem claim_C3 (env : Env) (input : PlanInput) (e : String)
    (h : parsePlan env input = .error e) :
    validate_formation env input =
      { valid := false, issues := [e], message := "Validation error: " ++ e }
    ∧ validate_player_positions env input =
      { valid := false, issues := [e], message := "Validation error: " ++ e }
    ∧ validate_zones env input =
      { valid := false, issues := [e], message := "Validation error: " ++ e }
    ∧ check_tactical_consistency env input =
      { valid := false, issues := [e], message := "Validation error: " ++ e } := by
  unfold validate_formation validate_player_positions validate_zones
    check_tactical_consistency runCheck
  rw [h]
  exact ⟨rfl, rfl, rfl, rfl⟩

/-- C3 witness: an input of an unsupported type makes every check return the
structured error report rather than an exception. -/
theorem claim_C3_witness :
    validate_formation emptyEnv (.other "<class \x27list\x27>") =
      { valid := false,
        issues := ["Invalid plan type: expected TacticalPlan, dict, or JSON string, got <class \x27list\x27>"],
        message := "Validation error: Invalid plan type: expected TacticalPlan, dict, or JSON string, got <class \x27list\x27>" }
    ∧ validate_player_positions emptyEnv (.other "<class \x27list\x27>") =
      { valid := false,
        issues := ["Invalid plan type: expected TacticalPlan, dict, or JSON string, got <class \x27list\x27>"],
        message := "Validation error: Invalid plan type: expected TacticalPlan, dict, or JSON string, got <class \x27list\x27>" }
    ∧ validate_zones emptyEnv (.other "<class \x27list\x27>") =
      { valid := false,
        issues := ["Invalid plan type: expected TacticalPlan, dict, or JSON string, got <class \x27list\x27>"],
        message := "Validation error: Invalid plan type: expected TacticalPlan, dict, or JSON string, got <class \x27list\x27>" }
    ∧ check_tactical_consistency emptyEnv (.other "<class \x27list\x27>") =
      { valid := false,
        issues := ["Invalid plan type: expected TacticalPlan, dict, or JSON string, got <class \x27list\x27>"],
        message := "Validation error: Invalid plan type: expected TacticalPlan, dict, or JSON string, got <class \x27list\x27>" } :=
  claim_C3 emptyEnv (.other "<class \x27list\x27>")
    "Invalid plan type: expected TacticalPlan, dict, or JSON string, got <class \x27list\x27>" rfl

/-- C10: for every input, each of the four checks reports valid exactly when
its issue list is empty (on the internal-error path the single issue keeps
valid false). -/
theorem claim_C10 (env : Env) (input : PlanInput) :
    ((validate_formation env input).valid = true ↔
      (validate_formation env input).issues = [])
    ∧ ((validate_player_positions env input).valid = true ↔
      (validate_player_positions env input).issues = [])
    ∧ ((validate_zones env input).valid = true ↔
      (validate_zones env input).issues = [])
    ∧ ((check_tactical_consistency env input).valid = true ↔
      (check_tactical_consistency env input).issues = []) :=
  ⟨runCheck_valid_iff env input _ _, runCheck_valid_iff env input _ _,
   runCheck_valid_iff env input _ _, runCheck_valid_iff env input _ _⟩

/-- C8 counterexample: a mapping whose plan_id field is a number is not
dropped by the resolver (the isinstance(str) guard skips it); construction
receives the numeric plan_id and fails, so no plan with a fresh identifier
is produced, contrary to the claim. -/
theorem claim_C8_counterexample :
    parsePlan emptyEnv (.dict numIdDict) =
      .error "UUID input should be a string, bytes or UUID object" := by
  rfl

theorem except_bind_ok {α β : Type} (x : Except String α) (f : α → Except String β) (b : β) :
    (x >>= f) = .ok b ↔ ∃ a, x = .ok a ∧ f a = .ok b := by
  cases x with
  | error e => simp [Bind.bind, Except.bind]
  | ok a => simp [Bind.bind, Except.bind]

theorem TacticalPlan.construct_ok_inv (d : PlanDict) (fid : UUID) (now : String)
    (p : TacticalPlan) (h : TacticalPlan.construct d fid now = .ok p) :
    ∃ pid nm fm pls zs,
      pidOf d.plan_id fid = .ok pid ∧
      reqField d.name "Field required: name" = .ok nm ∧
      reqField d.formation "Field required: formation" = .ok fm ∧
      mapEx Player.construct (d.players.getD []) = .ok pls ∧
      mapEx zoneEntryConstruct (d.zones.getD []) = .ok zs ∧
      p = { plan_id := pid, name := nm, formation := fm, players := pls, zones := zs,
            pressing_triggers := d.pressing_triggers.getD [],
            transition_instructions := d.transition_instructions.getD [],
            metadata := d.metadata.getD { created_at := now, modified_at := now } } := by
  simp only [TacticalPlan.construct, except_bind_ok, Except.ok.injEq] at h
  obtain ⟨pid, hpid, nm, hnm, fm, hfm, pls, hpls, zs, hzs, hfinal⟩ := h
  exact ⟨pid, nm, fm, pls, zs, hpid, hnm, hfm, hpls, hzs, hfinal.symm⟩

/-- C8 (amended): only a plan_id field holding a string that is not a valid
UUID is dropped; the resolver then constructs the plan from the remaining
fields, with the fresh identifier when construction succeeds (non-string
plan_id values are passed through to construction unchanged). -/
theorem claim_C8 (env : Env) (d : PlanDict) (s : String)
    (hs : d.plan_id = some (.str s)) (hbad : parseUUID s = none) :
    parsePlan env (.dict d) =
      TacticalPlan.construct { d with plan_id := none } env.freshId env.now
    ∧ ∀ p, TacticalPlan.construct { d with plan_id := none } env.freshId env.now = .ok p →
        p.plan_id = env.freshId := by
  have hc : coercePlanId d = { d with plan_id := none } := by
    simp only [coercePlanId, hs, hbad]
  constructor
  · show TacticalPlan.construct (coercePlanId d) env.freshId env.now = _
    rw [hc]
  · intro p hp
    obtain ⟨pid, nm, fm, pls, zs, hpid, _, _, _, _, hrec⟩ :=
      TacticalPlan.construct_ok_inv _ _ _ _ hp
    have hpid2 : Except.ok (ε := String) env.freshId = .ok pid := hpid
    injection hpid2 with h3
    rw [hrec]
    exact h3.symm

/-- C8 witness: a mapping whose plan_id is the non-UUID string
433-standard-001 resolves by dropping the field and constructing from the
remaining fields. -/
theorem claim_C8_witness :
    parsePlan emptyEnv (.dict strIdDict) =
      TacticalPlan.construct { strIdDict with plan_id := none }
        emptyEnv.freshId emptyEnv.now :=
  (claim_C8 emptyEnv strIdDict "433-standard-001" rfl (by decide)).1

-- ---------------------------------------------------------------------------
-- C9: the zone check on constructed plans
-- ---------------------------------------------------------------------------

theorem or_not_elim {a b : Bool} (h1 : a = true) (h2 : (!a || b) = true) : b = true := by
  rw [h1] at h2
  simpa using h2

theorem zone_construct_ok_isValid (x1 x2 y1 y2 : ℚ) (z : Zone)
    (h : Zone.construct x1 x2 y1 y2 = .ok z) : z.isValid = true := by
  simp only [Zone.construct] at h
  split at h
  case isTrue hc =>
    injection h with h2
    subst h2
    simp only [Bool.and_eq_true] at hc
    obtain ⟨⟨⟨hA, hB, hor1⟩, hC⟩, hD, hor2⟩ := hc
    have hx12 := or_not_elim hA hor1
    have hy12 := or_not_elim hC hor2
    simp only [Zone.isValid]
    rw [hA, hB, hC, hD, hx12, hy12]
    rfl
  case isFalse hc => exact Except.noConfusion h

theorem player_construct_ok_isValid (pd : PlayerDict) (pl : Player)
    (h : Player.construct pd = .ok pl) : pl.isValid = true := by
  simp only [Player.construct] at h
  split at h
  case isTrue hn =>
    rcases hz : Zone.construct pd.zone.x_min pd.zone.x_max pd.zone.y_min pd.zone.y_max
        with e | z <;> rw [hz] at h
    · exact Except.noConfusion h
    · injection h with h2
      subst h2
      simp only [Player.isValid, Bool.and_eq_true, decide_eq_true_iff]
      exact ⟨⟨hn.1, hn.2⟩, zone_construct_ok_isValid _ _ _ _ _ hz⟩
  case isFalse hn => exact Except.noConfusion h

theorem mapEx_ok_forall {α β : Type} (f : α → Except String β) (l : List α) (l2 : List β)
    (h : mapEx f l = .ok l2) : ∀ b ∈ l2, ∃ a ∈ l, f a = .ok b := by
  induction l generalizing l2 with
  | nil =>
    simp only [mapEx] at h
    injection h with h2
    subst h2
    intro b hb
    cases hb
  | cons a rest ih =>
    simp only [mapEx] at h
    rcases hfa : f a with e | b0 <;> rw [hfa] at h
    · exact Except.noConfusion h
    rcases hrest : mapEx f rest with e | bs <;> rw [hrest] at h
    · exact Except.noConfusion h
    injection h with h2
    subst h2
    intro b hb
    rcases List.mem_cons.mp hb with h3 | h3
    · subst h3
      exact ⟨a, List.mem_cons_self a rest, hfa⟩
    · rcases ih bs hrest b h3 with ⟨a2, ha2, hfa2⟩
      exact ⟨a2, List.mem_cons_of_mem a ha2, hfa2⟩

theorem TacticalPlan.construct_ok_players (d : PlanDict) (fid : UUID) (now : String)
    (p : TacticalPlan) (h : TacticalPlan.construct d fid now = .ok p) :
    ∀ pl ∈ p.players, pl.isValid = true := by
  obtain ⟨pid, nm, fm, pls, zs, _, _, _, hpls, _, hrec⟩ :=
    TacticalPlan.construct_ok_inv d fid now p h
  intro pl hpl
  rw [hrec] at hpl
  rcases mapEx_ok_forall _ _ _ hpls pl hpl with ⟨pd, _, hcon⟩
  exact player_construct_ok_isValid pd pl hcon

theorem zoneIssues_nil (p : TacticalPlan) (h : ∀ pl ∈ p.players, pl.zone.isValid = true) :
    zoneIssues p = [] := by
  have h1 : p.players.filter (fun pl => !(pl.zone.pyTruthy)) = [] := by
    rw [List.filter_eq_nil_iff]
    intro pl _
    simp [Zone.pyTruthy]
  have h2 : p.players.filter (fun pl =>
      decide (pl.zone.x_min < 0) || decide (pl.zone.x_max > 100) ||
      decide (pl.zone.y_min < 0) || decide (pl.zone.y_max > 100)) = [] := by
    rw [List.filter_eq_nil_iff]
    intro pl hpl
    have h3 := h pl hpl
    simp only [Zone.isValid, inFieldRange, Bool.and_eq_true, decide_eq_true_iff] at h3
    simp only [Bool.or_eq_true, decide_eq_true_iff, not_or, not_lt, gt_iff_lt]
    obtain ⟨⟨⟨⟨⟨hxminR, hxmaxR⟩, hyminR⟩, hymaxR⟩, _⟩, _⟩ := h3
    exact ⟨⟨⟨hxminR.1, hxmaxR.2⟩, hyminR.1⟩, hymaxR.2⟩
  unfold zoneIssues
  rw [h1, h2]
  simp

/-- C9: for every successfully constructed TacticalPlan, the zone check
returns valid with no issues: a constructed Zone is never treated as absent
(a pydantic model instance is always truthy) and construction already
bounds-checks every zone. -/
theorem claim_C9 (env : Env) (d : PlanDict) (fid : UUID) (now : String) (p : TacticalPlan)
    (h : TacticalPlan.construct d fid now = .ok p) :
    validate_zones env (.plan p) =
      { valid := true, issues := [], message := "Zones are valid" } := by
  have hz : zoneIssues p = [] := by
    refine zoneIssues_nil p (fun pl hpl => ?_)
    have h2 := TacticalPlan.construct_ok_players d fid now p h pl hpl
    simp only [Player.isValid, Bool.and_eq_true] at h2
    exact h2.2
  have hrep : validate_zones env (.plan p) =
      { valid := (zoneIssues p).isEmpty, issues := zoneIssues p,
        message := if (zoneIssues p).isEmpty then "Zones are valid"
                   else "Found " ++ toString (zoneIssues p).length ++ " issues" } := rfl
  rw [hrep, hz]
  rfl

/-- C9 witness: a concretely constructed plan passes the zone check. -/
theorem claim_C9_witness :
    validate_zones emptyEnv (.plan zSamplePlan) =
      { valid := true, issues := [], message := "Zones are valid" } :=
  claim_C9 emptyEnv zSampleDict uuid0 "2026-01-01T00:00:00" zSamplePlan rfl

/-- C7: given the exact debug-printed text plan_id=UUID of the quoted
identifier not-a-real-uuid (the c7input string, which is not parseable JSON),
with a plan store holding no matching file, resolution fails with an error
whose message names the extracted identifier not-a-real-uuid. -/
theorem claim_C7 (env : Env)
    (hjson : env.jsonLoads c7input = none)
    (hstore : env.store (c7input ++ ".json") = none) :
    ∃ e, parsePlan env (.text c7input) = .error e ∧ "not-a-real-uuid".data <:+: e.data := by
  have h1 : parsePlan env (.text c7input) =
      loadStoredForFilename env (toJsonFilename (pyStrip c7input)) c7input := by
    simp only [parsePlan]
    rw [hjson]
    rfl
  rw [h1]
  simp only [loadStoredForFilename]
  rw [show toJsonFilename (pyStrip c7input) = c7input ++ ".json" from rfl]
  rw [hstore]
  refine ⟨_, rfl, ?_⟩
  decide

/-- C7 witness: with the empty store and a json.loads that rejects the
non-JSON input, resolution of the concrete text fails naming the extracted
identifier. -/
theorem claim_C7_witness :
    ∃ e, parsePlan emptyEnv (.text c7input) = .error e ∧
      "not-a-real-uuid".data <:+: e.data :=
  claim_C7 emptyEnv rfl rfl

-- ---------------------------------------------------------------------------
-- C6: save/load round trip.  First: str(uuid) / UUID(s) are inverse.
-- ---------------------------------------------------------------------------

theorem toHexBE_length : ∀ w n, (toHexBE w n).length = w := by
  intro w
  induction w with
  | zero => intro n; rfl
  | succ w ih =>
    intro n
    simp [toHexBE, ih]

theorem toHexBE_lt : ∀ w n d, d ∈ toHexBE w n → d < 16 := by
  intro w
  induction w with
  | zero =>
    intro n d h
    simp [toHexBE] at h
  | succ w ih =>
    intro n d h
    simp only [toHexBE] at h
    rcases List.mem_append.mp h with h2 | h2
    · exact ih _ _ h2
    · rw [List.mem_singleton] at h2
      subst h2
      exact Nat.mod_lt _ (by norm_num)

theorem hexVal_hexChar (d : Nat) (h : d < 16) : hexVal (hexChar d) = d := by
  interval_cases d <;> decide

theorem hexChar_mem (d : Nat) (h : d < 16) : hexChar d ∈ "0123456789abcdef".data := by
  interval_cases d <;> decide

theorem mem_uuidHyphenate (ds : List Char) (c : Char) (h : c ∈ uuidHyphenate ds) :
    c ∈ ds ∨ c = '-' := by
  unfold uuidHyphenate at h
  simp only [List.mem_append, List.mem_cons] at h
  rcases h with (((h | h | h) | h | h) | h | h) | h | h <;>
    first
      | exact Or.inr h
      | exact Or.inl (List.mem_of_mem_take h)
      | exact Or.inl (List.mem_of_mem_drop (List.mem_of_mem_take h))
      | exact Or.inl (List.mem_of_mem_drop h)

theorem formatUUID_chars (u : UUID) :
    ∀ c ∈ (formatUUID u).data, c ∈ "0123456789abcdef".data ∨ c = '-' := by
  intro c hc
  have hc2 : c ∈ uuidHyphenate ((toHexBE 32 u.val).map hexChar) := hc
  rcases mem_uuidHyphenate _ _ hc2 with h | h
  · rcases List.mem_map.mp h with ⟨d, hd, rfl⟩
    exact Or.inl (hexChar_mem d (toHexBE_lt _ _ _ hd))
  · exact Or.inr h

theorem replaceAllAux_eq_self (p0 : Char) (pt : List Char) :
    ∀ fuel s, (∀ c ∈ s, c ≠ p0) → replaceAllAux (p0 :: pt) fuel s = s := by
  intro fuel
  induction fuel with
  | zero => intro s _; cases s <;> rfl
  | succ n ih =>
    intro s h
    cases s with
    | nil => rfl
    | cons c rest =>
      have hnp : ¬((p0 :: pt).isPrefixOf (c :: rest) = true ∧ (p0 :: pt) ≠ []) := by
        rintro ⟨hpre, _⟩
        simp only [List.isPrefixOf, Bool.and_eq_true, beq_iff_eq] at hpre
        exact h c (List.mem_cons_self c rest) hpre.1.symm
      simp only [replaceAllAux]
      rw [if_neg hnp]
      rw [ih rest (fun c2 hc2 => h c2 (List.mem_cons_of_mem _ hc2))]

theorem replaceAll_eq_self (pat s : List Char) (p0 : Char) (hp : pat.head? = some p0)
    (h : ∀ c ∈ s, c ≠ p0) : replaceAll pat s = s := by
  cases pat with
  | nil => cases hp
  | cons q qt =>
    injection hp with hq
    rw [← hq] at h
    exact replaceAllAux_eq_self q qt s.length s h

theorem dropWhile_eq_self_of (p : Char → Bool) (l : List Char) (h : ∀ c ∈ l, p c = false) :
    l.dropWhile p = l := by
  cases l with
  | nil => rfl
  | cons c rest =>
    have h2 := h c (List.mem_cons_self c rest)
    simp [List.dropWhile_cons, h2]

theorem stripBraces_eq_self (l : List Char) (h : ∀ c ∈ l, isBrace c = false) :
    stripBraces l = l := by
  unfold stripBraces
  rw [dropWhile_eq_self_of _ _ h]
  rw [dropWhile_eq_self_of _ _ (fun c hc => h c (List.mem_reverse.mp hc))]
  exact List.reverse_reverse l

theorem take_drop_recompose (ds : List Char) :
    ds.take 8 ++ ((ds.drop 8).take 4 ++ ((ds.drop 12).take 4 ++
      ((ds.drop 16).take 4 ++ ds.drop 20))) = ds := by
  have h1 : (ds.drop 16).take 4 ++ ds.drop 20 = ds.drop 16 := by
    rw [show ds.drop 20 = (ds.drop 16).drop 4 by rw [List.drop_drop]]
    exact List.take_append_drop 4 (ds.drop 16)
  rw [h1]
  have h2 : (ds.drop 12).take 4 ++ ds.drop 16 = ds.drop 12 := by
    rw [show ds.drop 16 = (ds.drop 12).drop 4 by rw [List.drop_drop]]
    exact List.take_append_drop 4 (ds.drop 12)
  rw [h2]
  have h3 : (ds.drop 8).take 4 ++ ds.drop 12 = ds.drop 8 := by
    rw [show ds.drop 12 = (ds.drop 8).drop 4 by rw [List.drop_drop]]
    exact List.take_append_drop 4 (ds.drop 8)
  rw [h3]
  exact List.take_append_drop 8 ds

theorem filter_uuidHyphenate (ds : List Char) (h : ∀ c ∈ ds, (c == '-') = false) :
    (uuidHyphenate ds).filter (fun c => !(c == '-')) = ds := by
  have hseg : ∀ (l : List Char), (∀ c ∈ l, (c == '-') = false) →
      l.filter (fun c => !(c == '-')) = l := by
    intro l hl
    rw [List.filter_eq_self]
    intro a ha
    rw [hl a ha]
    rfl
  have hdash : ∀ (l : List Char),
      ('-' :: l).filter (fun c => !(c == '-')) = l.filter (fun c => !(c == '-')) :=
    fun _ => rfl
  unfold uuidHyphenate
  simp only [List.filter_append, hdash]
  rw [hseg _ (fun c hc => h c (List.mem_of_mem_take hc)),
      hseg _ (fun c hc => h c (List.mem_of_mem_drop (List.mem_of_mem_take hc))),
      hseg _ (fun c hc => h c (List.mem_of_mem_drop (List.mem_of_mem_take hc))),
      hseg _ (fun c hc => h c (List.mem_of_mem_drop (List.mem_of_mem_take hc))),
      hseg _ (fun c hc => h c (List.mem_of_mem_drop hc))]
  simp only [List.append_assoc]
  exact take_drop_recompose ds

theorem hexFold_toHexBE : ∀ (w n a : Nat),
    List.foldl (fun acc c => acc * 16 + hexVal c) a ((toHexBE w n).map hexChar) =
      a * 16 ^ w + n % 16 ^ w := by
  intro w
  induction w with
  | zero =>
    intro n a
    simp [toHexBE, Nat.mod_one]
  | succ w ih =>
    intro n a
    simp only [toHexBE, List.map_append, List.foldl_append, List.map_cons, List.map_nil,
      List.foldl_cons, List.foldl_nil]
    rw [ih]
    rw [hexVal_hexChar (n % 16) (Nat.mod_lt _ (by norm_num))]
    rw [pow_succ]
    have hmm : n % (16 ^ w * 16) = n % 16 + 16 * (n / 16 % 16 ^ w) := by
      rw [mul_comm]
      exact Nat.mod_mul
    rw [hmm]
    ring

theorem parseUUID_spec (s : String) (ds : List Char)
    (hclean : (stripBraces (replaceAll "uuid:".data (replaceAll "urn:".data s.data))).filter
      (fun c => !(c == '-')) = ds)
    (hlen : ds.length = 32) (hhex : ∀ c ∈ ds, isHexChar c = true) :
    parseUUID s = some ⟨hexFold ds % 2 ^ 128, Nat.mod_lt _ (by norm_num)⟩ := by
  simp only [parseUUID, hclean]
  rw [if_pos ⟨hlen, hhex⟩]

theorem parseUUID_formatUUID (u : UUID) : parseUUID (formatUUID u) = some u := by
  have hchars := formatUUID_chars u
  have hhexlist : ∀ c ∈ "0123456789abcdef".data,
      c ≠ 'u' ∧ isBrace c = false ∧ (c == '-') = false ∧ isHexChar c = true := by
    decide
  have h1 : replaceAll "urn:".data (formatUUID u).data = (formatUUID u).data := by
    refine replaceAll_eq_self _ _ 'u' rfl (fun c hc => ?_)
    rcases hchars c hc with h | h
    · exact (hhexlist c h).1
    · rw [h]; decide
  have h2 : replaceAll "uuid:".data (formatUUID u).data = (formatUUID u).data := by
    refine replaceAll_eq_self _ _ 'u' rfl (fun c hc => ?_)
    rcases hchars c hc with h | h
    · exact (hhexlist c h).1
    · rw [h]; decide
  have h3 : stripBraces (formatUUID u).data = (formatUUID u).data := by
    refine stripBraces_eq_self _ (fun c hc => ?_)
    rcases hchars c hc with h | h
    · exact (hhexlist c h).2.1
    · rw [h]; decide
  have hds : ∀ c ∈ (toHexBE 32 u.val).map hexChar, (c == '-') = false := by
    intro c hc
    rcases List.mem_map.mp hc with ⟨d, hd, rfl⟩
    exact (hhexlist _ (hexChar_mem d (toHexBE_lt _ _ _ hd))).2.2.1
  have h4 : (formatUUID u).data.filter (fun c => !(c == '-')) =
      (toHexBE 32 u.val).map hexChar := by
    have : (formatUUID u).data = uuidHyphenate ((toHexBE 32 u.val).map hexChar) := rfl
    rw [this]
    exact filter_uuidHyphenate _ hds
  have h5 : ((toHexBE 32 u.val).map hexChar).length = 32 := by
    rw [List.length_map, toHexBE_length]
  have h6 : ∀ c ∈ (toHexBE 32 u.val).map hexChar, isHexChar c = true := by
    intro c hc
    rcases List.mem_map.mp hc with ⟨d, hd, rfl⟩
    exact (hhexlist _ (hexChar_mem d (toHexBE_lt _ _ _ hd))).2.2.2
  have h7 : hexFold ((toHexBE 32 u.val).map hexChar) = u.val := by
    unfold hexFold
    rw [hexFold_toHexBE]
    rw [Nat.zero_mul, Nat.zero_add]
    exact Nat.mod_eq_of_lt (by have := u.isLt; norm_num at this ⊢; omega)
  have hc : (stripBraces (replaceAll "uuid:".data (replaceAll "urn:".data
      (formatUUID u).data))).filter (fun c => !(c == '-')) =
      (toHexBE 32 u.val).map hexChar := by
    rw [h1, h2, h3]
    exact h4
  rw [parseUUID_spec (formatUUID u) ((toHexBE 32 u.val).map hexChar) hc h5 h6]
  exact congrArg some (Fin.eq_of_val_eq (by
    show hexFold ((toHexBE 32 u.val).map hexChar) % 2 ^ 128 = u.val
    rw [h7]
    exact Nat.mod_eq_of_lt u.isLt))

theorem zone_construct_encode (z : Zone) (hv : z.isValid = true) :
    Zone.construct z.x_min z.x_max z.y_min z.y_max = .ok z := by
  simp only [Zone.isValid, Bool.and_eq_true] at hv
  obtain ⟨⟨⟨⟨⟨hA, hB⟩, hC⟩, hD⟩, hL1⟩, hL2⟩ := hv
  simp only [Zone.construct, hA, hB, hC, hD, hL1, hL2]
  rfl

theorem player_construct_encode (pl : Player) (hv : pl.isValid = true) :
    Player.construct (encodePlayer pl) = .ok pl := by
  simp only [Player.isValid, Bool.and_eq_true, decide_eq_true_eq] at hv
  obtain ⟨⟨h1, h2⟩, h3⟩ := hv
  simp only [Player.construct, encodePlayer, encodeZone]
  rw [if_pos ⟨h1, h2⟩]
  rw [zone_construct_encode pl.zone h3]
  rfl

theorem mapEx_players_encode (l : List Player) (h : ∀ pl ∈ l, pl.isValid = true) :
    mapEx Player.construct (l.map encodePlayer) = .ok l := by
  induction l with
  | nil => rfl
  | cons pl rest ih =>
    simp only [List.map_cons, mapEx]
    rw [player_construct_encode pl (h pl (List.mem_cons_self pl rest))]
    rw [ih (fun q hq => h q (List.mem_cons_of_mem _ hq))]
    rfl

theorem mapEx_zones_encode (l : List (String × Zone)) (h : ∀ kz ∈ l, kz.2.isValid = true) :
    mapEx zoneEntryConstruct (l.map (fun kz => (kz.1, encodeZone kz.2))) = .ok l := by
  induction l with
  | nil => rfl
  | cons kz rest ih =>
    simp only [List.map_cons, mapEx, zoneEntryConstruct]
    have hhead : Zone.construct (encodeZone kz.2).x_min (encodeZone kz.2).x_max
        (encodeZone kz.2).y_min (encodeZone kz.2).y_max = .ok kz.2 :=
      zone_construct_encode kz.2 (h kz (List.mem_cons_self kz rest))
    rw [hhead]
    rw [ih (fun q hq => h q (List.mem_cons_of_mem _ hq))]
    rfl

theorem construct_encodePlan (p : TacticalPlan) (fid : UUID) (now2 : String)
    (hv : p.isValid = true) :
    TacticalPlan.construct { encodePlan p with plan_id := some (.uuidVal p.plan_id) } fid now2 =
      .ok p := by
  simp only [TacticalPlan.isValid, Bool.and_eq_true, List.all_eq_true] at hv
  obtain ⟨hpl, hz⟩ := hv
  simp only [TacticalPlan.construct, encodePlan, pidOf, reqField, Option.getD_some]
  rw [mapEx_players_encode p.players hpl]
  rw [mapEx_zones_encode p.zones (fun kz hkz => hz kz hkz)]
  rfl

theorem load_plan_content_encode (p : TacticalPlan) (fid : UUID) (now2 : String)
    (hv : p.isValid = true) :
    load_plan_content (encodePlan p) fid now2 = .ok p := by
  simp only [load_plan_content, encodePlan]
  rw [parseUUID_formatUUID]
  exact construct_encodePlan p fid now2 hv

/-- C6: saving a valid plan and loading it back from the same filename yields
a plan equal to the original in plan_id, name, formation, players, zones,
pressing_triggers, transition_instructions and metadata.created_at, while
metadata.modified_at becomes the save-time clock value, hence is at least
its pre-save value whenever the clock is monotone. -/
theorem claim_C6 (store : Store) (now now2 : String) (fid : UUID)
    (p : TacticalPlan) (filename : Option String) (hv : p.isValid = true) :
    (load_plan (save_plan store now p filename).1 fid now2
        (match filename with
         | none => formatUUID p.plan_id ++ ".json"
         | some f => f) = .ok (p.update_modified_time now))
    ∧ (p.update_modified_time now).plan_id = p.plan_id
    ∧ (p.update_modified_time now).name = p.name
    ∧ (p.update_modified_time now).formation = p.formation
    ∧ (p.update_modified_time now).players = p.players
    ∧ (p.update_modified_time now).zones = p.zones
    ∧ (p.update_modified_time now).pressing_triggers = p.pressing_triggers
    ∧ (p.update_modified_time now).transition_instructions = p.transition_instructions
    ∧ (p.update_modified_time now).metadata.created_at = p.metadata.created_at
    ∧ (p.metadata.modified_at ≤ now →
        p.metadata.modified_at ≤ (p.update_modified_time now).metadata.modified_at) := by
  refine ⟨?_, rfl, rfl, rfl, rfl, rfl, rfl, rfl, rfl, fun h => h⟩
  cases filename with
  | none =>
    have hkey : (save_plan store now p none).1
        (ensureJson (formatUUID p.plan_id ++ ".json")) =
        some (.content (encodePlan (p.update_modified_time now))) := by
      simp only [save_plan]
      rw [if_pos trivial]
    show load_plan (save_plan store now p none).1 fid now2
      (formatUUID p.plan_id ++ ".json") = .ok (p.update_modified_time now)
    simp only [load_plan]
    rw [hkey]
    exact load_plan_content_encode (p.update_modified_time now) fid now2 hv
  | some f =>
    have hkey : (save_plan store now p (some f)).1 (ensureJson f) =
        some (.content (encodePlan (p.update_modified_time now))) := by
      simp only [save_plan]
      rw [if_pos trivial]
    show load_plan (save_plan store now p (some f)).1 fid now2 f =
      .ok (p.update_modified_time now)
    simp only [load_plan]
    rw [hkey]
    exact load_plan_content_encode (p.update_modified_time now) fid now2 hv

/-- C6 witness: a concrete valid plan saved under its default filename loads
back as the plan with only modified_at refreshed. -/
theorem claim_C6_witness :
    load_plan (save_plan (fun _ => none) "2026-01-02T00:00:00" zSamplePlan none).1
        uuid0 "2026-01-03T00:00:00" (formatUUID zSamplePlan.plan_id ++ ".json") =
      .ok (zSamplePlan.update_modified_time "2026-01-02T00:00:00") :=
  (claim_C6 (fun _ => none) "2026-01-02T00:00:00" "2026-01-03T00:00:00" uuid0
    zSamplePlan none (by decide)).1
